import Mathlib

/-!
Shallow embedding of the unix74 kernel (src/kernel/unix.py and the modules it
relies on: src/filesystem/filesystem.py, src/process/process.py,
src/process/file_descriptor.py, src/self_keyed_dict.py, src/kernel/errors.py).

Conventions of the embedding:
* Python `str` values used as file contents and syscall payloads are `List Char`;
  paths stay `String` for splitting.
* Python object references to mutable `INode` / `OpenFileDescriptor` objects are
  modelled as keys into the kernel state's tables (`(filesystemId, iNumber)` for
  inodes, the OFD id for open file descriptions); the states appearing in the
  theorems below keep these tables consistent, so key-based dereferencing agrees
  with Python's object aliasing.
* `SelfKeyedDict` is a Python dict keyed by an attribute of the stored object;
  it is modelled as an insertion-ordered association list, with dict assignment
  replacing in place and `del` removing the entry.
* Exceptions: `KernelError(errno)` is `Fault.kernelError e`; a raw Python
  `KeyError` is `Fault.keyError`; a raw `AttributeError` is `Fault.attrError`.
  The dispatcher maps `KernelError` to its errno and any other exception to
  `Errno.PANIC`, as in `Unix.start`.
* Handler execution is modelled in the monad `K`: state passing plus the list
  of messages written to user pipes plus exception propagation, with state
  changes made before a raise preserved (as in Python).
-/

namespace Unix74

/-- Errnos of src/kernel/errors.py. Note the enum has no EBADF value. -/
inductive Errno where
  | NONE | EPERM | EACCES | ENOENT | EEXIST | EISDIR | ENOTDIR | EINVAL
  | ENOSYS | ECHILD | ESRCH | EXDEV | ENOEXEC | EINTR | UNSPECIFIED | EKILLED
  | PANIC
deriving DecidableEq, Repr

/-- An exceptional outcome of a handler: a typed KernelError carrying an errno,
or a raw Python KeyError / AttributeError. -/
inductive Fault where
  | kernelError (e : Errno)
  | keyError
  | attrError
deriving DecidableEq, Repr

/-- How Unix.start maps an exception escaping a handler to the errno of the
error reply: KernelError keeps its errno, any other exception becomes PANIC. -/
def Fault.toErrno : Fault → Errno
  | .kernelError e => e
  | .keyError => .PANIC
  | .attrError => .PANIC

/-- filesystem/flags.py Mode bits. -/
def Mode.READ : Nat := 4
def Mode.WRITE : Nat := 2
def Mode.EXEC : Nat := 1

/-- process/file_descriptor.py OpenFlags bits (Flag with auto values). -/
def OpenFlags.READ : Nat := 1
def OpenFlags.WRITE : Nat := 2
def OpenFlags.APPEND : Nat := 4
def OpenFlags.CREATE : Nat := 8
def OpenFlags.TRUNCATE : Nat := 16

inductive SeekFrom where
  | SET | CURRENT | END
deriving DecidableEq, Repr

inductive FileType where
  | NONE | REGULAR | DIRECTORY | CHARACTER | LINK | PIPE
deriving DecidableEq, Repr

inductive ProcessStatus where
  | RUNNING | WAITING | ZOMBIE
deriving DecidableEq, Repr

inductive INodeOperation where
  | GET | CREATE | CREATE_EXCLUSIVE | PARENT
deriving DecidableEq, Repr

/-- filesystem/filesystem.py FilePermissions: four 3-bit fields. -/
structure FilePermissions where
  high : Nat
  owner : Nat
  group : Nat
  other : Nat
deriving DecidableEq, Repr

/-- FilePermissions.parsePermissions: clamp negatives to 0, reduce mod 8^4,
extract the four octal digits. -/
def FilePermissions.parsePermissions (p : Int) : FilePermissions :=
  let p : Nat := if p < 0 then 0 else (p % 4096).toNat
  { high := p / 512 % 8, owner := p / 64 % 8, group := p / 8 % 8, other := p % 8 }

/-- Python dict lookup on an insertion-ordered association list. -/
def dictGet {κ α : Type} [DecidableEq κ] : List (κ × α) → κ → Option α
  | [], _ => Option.none
  | (k', v) :: t, k => if k' = k then some v else dictGet t k

/-- Python dict assignment: replace in place if the key exists, else append. -/
def dictSet {κ α : Type} [DecidableEq κ] : List (κ × α) → κ → α → List (κ × α)
  | [], k, v => [(k, v)]
  | (k', v') :: t, k, v => if k' = k then (k, v) :: t else (k', v') :: dictSet t k v

/-- Python dict del (keys are unique, so removing the first match suffices). -/
def dictRemove {κ α : Type} [DecidableEq κ] : List (κ × α) → κ → List (κ × α)
  | [], _ => []
  | (k', v') :: t, k => if k' = k then t else (k', v') :: dictRemove t k

/-- Python index normalisation for slicing: negative indices count from the
end, then both bounds clamp to [0, len]. -/
def pyIdx (len : Nat) (i : Int) : Nat :=
  if i < 0 then (Int.ofNat len + i).toNat else min i.toNat len

/-- Python slice l[a:b]. -/
def pySlice (l : List Char) (a b : Int) : List Char :=
  (l.take (pyIdx l.length b)).drop (pyIdx l.length a)

/-- Python slice l[:o]. -/
def pyTake (l : List Char) (o : Int) : List Char :=
  l.take (pyIdx l.length o)

/-- INodeData / DirectoryData payload. `dataStr` is the `_data` buffer; a
directory additionally carries the `children` mapping (name to inumber) and is
recognised by `children` being `some`, mirroring the subclass dispatch.
The BinaryFileData and SpecialFileData subclasses are not exercised by the
operations modelled here. -/
structure INodeData where
  dataStr : List Char
  children : Option (List (String × Nat))
deriving DecidableEq, Repr

/-- INodeData.read: `self._data[offset:offset + size]`. -/
def INodeData.read (d : INodeData) (size offset : Int) : List Char :=
  pySlice d.dataStr offset (offset + size)

/-- INodeData.write: `self._data = self._data[:offset] + data; return len(data)`.
DirectoryData does not override write, so the children field is untouched. -/
def INodeData.write (d : INodeData) (data : List Char) (offset : Int) :
    INodeData × Int :=
  ({ d with dataStr := pyTake d.dataStr offset ++ data }, Int.ofNat data.length)

/-- INodeData.append. -/
def INodeData.append (d : INodeData) (data : List Char) : INodeData × Int :=
  ({ d with dataStr := d.dataStr ++ data }, Int.ofNat data.length)

/-- INodeData.trunc; DirectoryData.trunc overrides it to raise EISDIR. -/
def INodeData.trunc (d : INodeData) : Except Fault INodeData :=
  match d.children with
  | some _ => .error (.kernelError .EISDIR)
  | Option.none => .ok { d with dataStr := [] }

/-- INodeData.size. -/
def INodeData.size (d : INodeData) : Nat := d.dataStr.length

/-- DirectoryData.__makeData: rebuild `_data` from the children map. -/
def makeDirData (cs : List (String × Nat)) : List Char :=
  cs.foldl (fun acc nv => acc ++ nv.1.data ++ (toString nv.2).data) []

/-- DirectoryData.addChild, reached through `cast(DirectoryData, data)`: calling
addChild on a payload that is not directory data raises AttributeError. -/
def INodeData.addChild (d : INodeData) (name : String) (inumber : Nat) :
    Except Fault INodeData :=
  match d.children with
  | Option.none => .error .attrError
  | some cs =>
      if name = "" then .error (.kernelError .ENOENT)
      else
        let cs' := dictSet cs name inumber
        .ok { dataStr := makeDirData cs', children := some cs' }

/-- filesystem/filesystem.py INode. datetimes are abstracted to Nat stamps. -/
structure INode where
  iNumber : Nat
  permissions : FilePermissions
  fileType : FileType
  owner : Nat
  group : Nat
  timeCreated : Nat
  timeModified : Nat
  data : INodeData
  filesystemId : Nat
  isMount : Bool := false
  deviceNumber : Int := -1
  references : Int := 1
deriving DecidableEq, Repr

/-- filesystem/filesystem_utils.py Mount. -/
structure Mount where
  mountedFsId : Nat
  mountedOnFsId : Nat
  mountedOnINumber : Nat
deriving DecidableEq, Repr

/-- filesystem/filesystem.py Filesystem. `covered` is an inode reference. -/
structure Filesystem where
  uuid : Nat
  covered : Option (Nat × Nat) := Option.none
  inodes : List (Nat × INode) := []
  rootINum : Option Nat := Option.none
  nextINumber : Nat := 1
  blockSize : Nat := 512
deriving DecidableEq, Repr

/-- Filesystem.root(): `if self.rootINum: return self.inodes[self.rootINum]`,
else None. Callers immediately use the result's attributes, so the None case is
modelled as the AttributeError those uses raise; the theorems below only visit
states with a valid root. A missing root inode is the raw KeyError of the dict
indexing. -/
def Filesystem.rootGet (fs : Filesystem) : Except Fault INode :=
  match fs.rootINum with
  | Option.none => .error .attrError
  | some r =>
      if r = 0 then .error .attrError
      else
        match dictGet fs.inodes r with
        | some i => .ok i
        | Option.none => .error .keyError

/-- Filesystem.claimNextINumber. -/
def Filesystem.claimNextINumber (fs : Filesystem) : Nat × Filesystem :=
  let i := fs.nextINumber
  let fs := if fs.rootINum = Option.none then { fs with rootINum := some i } else fs
  (i, { fs with nextINumber := i + 1 })

/-- process/file_descriptor.py OpenFileDescriptor; `file` is an inode reference. -/
structure OpenFileDescriptor where
  id : Nat
  mode : Nat
  file : Nat × Nat
  refCount : Int := 1
  offset : Int := 0
deriving DecidableEq, Repr

/-- process/file_descriptor.py ProcessFileDescriptor; `openFd` references the
open file description by its id. -/
structure ProcessFileDescriptor where
  id : Nat
  openFd : Nat
deriving DecidableEq, Repr

/-- process/process.py ProcessEntry. `pipe` records whether the entry holds a
user-task channel (sendSyscallReturn only sends when it is truthy). `ppid` is
an Int because Unix.exit compares it against 0. -/
structure ProcessEntry where
  pid : Nat
  ppid : Int
  command : String
  realUid : Nat
  realGid : Nat
  currentDir : Nat × Nat
  uid : Nat
  gid : Nat
  pipe : Bool := false
  status : ProcessStatus := .RUNNING
  exitCode : Int := 0
  fdTable : List (Nat × ProcessFileDescriptor) := []
deriving DecidableEq, Repr

/-- The ProcessEntry constructor as used by Unix.fork: uid/gid default to the
real ids (dataclass __post_init__), the fd table starts empty. -/
def ProcessEntry.make (pid : Nat) (ppid : Int) (command : String)
    (realUid realGid : Nat) (currentDir : Nat × Nat) (pipe : Bool) : ProcessEntry :=
  { pid := pid, ppid := ppid, command := command, realUid := realUid,
    realGid := realGid, currentDir := currentDir, uid := realUid, gid := realGid,
    pipe := pipe }

/-- The lowest-free-integer scan (`while i in table: i += 1`) used by
claimNextFdNum and claimNextOftId; `keys.length + 1` steps always suffice. -/
def lowestFreeFrom (keys : List Nat) : Nat → Nat → Nat
  | i, 0 => i
  | i, fuel + 1 => if keys.contains i then lowestFreeFrom keys (i + 1) fuel else i

def lowestFree (keys : List Nat) : Nat :=
  lowestFreeFrom keys 0 (keys.length + 1)

/-- A value sent back on a user pipe: None, an int, a str, or a 2-tuple; `exc`
stands for the repr of an exception sent with an error reply. -/
inductive PyVal where
  | none
  | int (i : Int)
  | str (s : List Char)
  | tuple2 (a b : Int)
  | exc
deriving DecidableEq, Repr

/-- One message written to a process's channel: (value, errno) sent to pid. -/
structure Msg where
  pid : Nat
  val : PyVal
  errno : Errno
deriving DecidableEq, Repr

/-- The kernel state of class Unix. `rootNode` holds the root volume's uuid. -/
structure UnixSt where
  mounts : List Mount := []
  filesystems : List (Nat × Filesystem) := []
  rootNode : Option Nat := Option.none
  processes : List (Nat × ProcessEntry) := []
  openFileTable : List (Nat × OpenFileDescriptor) := []
  nextPid : Nat := 0
  now : Nat := 0
deriving DecidableEq, Repr

/-- Handler execution: threads the kernel state, accumulates the messages sent
on user pipes, and propagates exceptions while keeping the state mutations made
before the raise. -/
def K (α : Type) : Type := UnixSt → UnixSt × List Msg × Except Fault α

def K.pure {α : Type} (a : α) : K α := fun s => (s, [], .ok a)

def K.bind {α β : Type} (x : K α) (f : α → K β) : K β := fun s =>
  match x s with
  | (s', ms, .error e) => (s', ms, .error e)
  | (s', ms, .ok a) =>
      match f a s' with
      | (s'', ms2, r) => (s'', ms ++ ms2, r)

instance : Monad K where
  pure := K.pure
  bind := K.bind

def K.getSt : K UnixSt := fun s => (s, [], .ok s)

def K.modifySt (f : UnixSt → UnixSt) : K Unit := fun s => (f s, [], .ok ())

def K.raise {α : Type} (f : Fault) : K α := fun s => (s, [], .error f)

def K.send (m : Msg) : K Unit := fun s => (s, [m], .ok ())

def K.ofExcept {α : Type} (x : Except Fault α) : K α := fun s => (s, [], x)

theorem K.bind_eq {α β : Type} (x : K α) (f : α → K β) :
    (x >>= f) = K.bind x f := rfl

theorem K.pure_eq {α : Type} (a : α) : (Pure.pure a : K α) = K.pure a := rfl

/-- Unix.getProcess: KeyError on the process table becomes KernelError ESRCH. -/
def getProcess (pid : Nat) : K ProcessEntry := fun s =>
  match dictGet s.processes pid with
  | some p => (s, [], .ok p)
  | Option.none => (s, [], .error (.kernelError .ESRCH))

/-- Write back a mutated ProcessEntry (Python mutates the object aliased in the
process table in place). -/
def putProcess (p : ProcessEntry) : K Unit :=
  K.modifySt fun s => { s with processes := dictSet s.processes p.pid p }

/-- Unix.isSuperUser. -/
def isSuperUser (uid : Nat) : Bool := uid == 0

/-- Unix.sendSyscallReturn followed by returning the value, i.e.
Unix.syscallReturnSuccess: look the process up again, send (value, NONE) on its
pipe when it has one. -/
def syscallReturnSuccess (pid : Nat) (v : PyVal) : K PyVal := do
  let process ← getProcess pid
  if process.pipe then
    K.send { pid := pid, val := v, errno := Errno.NONE }
  pure v

/-- The checkModeSubset closure in Unix.access: `m in inodeMode` for IntFlag
means the bits of m are a subset of inodeMode. -/
def checkModeSubset (m inodeMode : Nat) : Except Fault Bool :=
  if m &&& inodeMode = m then .ok true else .error (.kernelError .EACCES)

/-- Unix.access. -/
def access (pid : Nat) (inode : INode) (mode : Nat) : K Bool := do
  let process ← getProcess pid
  if isSuperUser process.uid then
    if Mode.EXEC &&& mode = Mode.EXEC ∧
        ¬ (Mode.EXEC &&&
            (inode.permissions.owner ||| inode.permissions.group |||
              inode.permissions.other) = Mode.EXEC) then
      K.raise (.kernelError .EACCES)
    else
      pure true
  else if process.uid = inode.owner then
    K.ofExcept (checkModeSubset mode inode.permissions.owner)
  else if process.gid = inode.group then
    K.ofExcept (checkModeSubset mode inode.permissions.group)
  else
    K.ofExcept (checkModeSubset mode inode.permissions.other)

/-- `self.filesystems[fsId]`: raw dict indexing, KeyError when missing. -/
def getFilesystem (fsId : Nat) : K Filesystem := fun s =>
  match dictGet s.filesystems fsId with
  | some fs => (s, [], .ok fs)
  | Option.none => (s, [], .error .keyError)

/-- Dereference an inode object reference `(filesystemId, iNumber)`. The
theorems below only visit states where references are live, so the dangling
case may map to any fault; KeyError is used. -/
def derefInodeRef (ref : Nat × Nat) : K INode := fun s =>
  match dictGet s.filesystems ref.1 with
  | some fs =>
      match dictGet fs.inodes ref.2 with
      | some i => (s, [], .ok i)
      | Option.none => (s, [], .error .keyError)
  | Option.none => (s, [], .error .keyError)

/-- Write back a mutated INode through its object reference (Python mutates the
object held in `fs.inodes` in place). -/
def putInode (inode : INode) : K Unit :=
  K.modifySt fun s =>
    match dictGet s.filesystems inode.filesystemId with
    | some fs =>
        { s with
          filesystems := dictSet s.filesystems inode.filesystemId
            { fs with inodes := dictSet fs.inodes inode.iNumber inode } }
    | Option.none => s

/-- Dereference an OpenFileDescriptor object (held in the open file table). -/
def getOfd (ofdId : Nat) : K OpenFileDescriptor := fun s =>
  match dictGet s.openFileTable ofdId with
  | some o => (s, [], .ok o)
  | Option.none => (s, [], .error .keyError)

/-- Write back a mutated OpenFileDescriptor. -/
def putOfd (ofd : OpenFileDescriptor) : K Unit :=
  K.modifySt fun s =>
    { s with openFileTable := dictSet s.openFileTable ofd.id ofd }

/-- `self.rootNode` (the root Filesystem object); boot puts it into
`self.filesystems`, so the key-based model looks it up there. -/
def getRootFs : K Filesystem := fun s =>
  match s.rootNode with
  | some fsId =>
      match dictGet s.filesystems fsId with
      | some fs => (s, [], .ok fs)
      | Option.none => (s, [], .error .keyError)
  | Option.none => (s, [], .error .attrError)

/-- Unix.iget: load an inode, crossing forward over a mount point. -/
def iget (filesystemId iNumber : Nat) : K INode := do
  let fs ← getFilesystem filesystemId
  let inode ←
    match dictGet fs.inodes iNumber with
    | some i => K.pure i
    | Option.none => K.raise Fault.keyError
  if inode.isMount then
    let s ← K.getSt
    match s.mounts.find? (fun m =>
        m.mountedOnFsId = inode.filesystemId ∧ m.mountedOnINumber = inode.iNumber) with
    | some m => do
        let fs2 ← getFilesystem m.mountedFsId
        K.ofExcept fs2.rootGet
    | Option.none => K.raise (.kernelError .ENOENT)
  else
    pure inode

/-- iget as called inside the try block of the traversal loop: a KeyError is
caught there and becomes KernelError ENOENT. -/
def igetCaught (filesystemId iNumber : Nat) : K INode := fun s =>
  match iget filesystemId iNumber s with
  | (s', ms, .error .keyError) => (s', ms, .error (.kernelError .ENOENT))
  | r => r

/-- `path.rstrip("/")`. -/
def pyRstripSlash (path : String) : String :=
  String.mk ((path.data.reverse.dropWhile (fun c => c = '/')).reverse)

/-- Python str.split(sep) for a one-character separator, written structurally
on the character list so it evaluates by kernel reduction. -/
def splitChars (sep : Char) : List Char → List Char → List String
  | acc, [] => [String.mk acc.reverse]
  | acc, c :: rest =>
      if c = sep then String.mk acc.reverse :: splitChars sep [] rest
      else splitChars sep (c :: acc) rest

/-- `path.split("/")`. -/
def pySplitSlash (path : String) : List String :=
  splitChars '/' [] path.data

/-- `path.startswith("/")`. -/
def pyStartsWithSlash (path : String) : Bool :=
  match path.data with
  | c :: _ => c = '/'
  | [] => false

/-- `path.rstrip("/").split("/")`. -/
def splitPath (path : String) : List String :=
  pySplitSlash (pyRstripSlash path)

/-- The child lookup in the traversal loop's try block: the KeyError of
`children[part]` becomes ENOENT; accessing `.children` on non-directory data is
an AttributeError, which the `except KeyError` does not catch. -/
def childLookup (cur : INode) (part : String) : K INode :=
  match cur.data.children with
  | Option.none => K.raise Fault.attrError
  | some cs =>
      match dictGet cs part with
      | Option.none => K.raise (.kernelError .ENOENT)
      | some childINumber => igetCaught cur.filesystemId childINumber

/-- The per-component loop of Unix.traversePath. -/
def traverseLoop (pid : Nat) (cur : INode) : List String → K INode
  | [] => K.pure cur
  | part0 :: rest => do
      if cur.fileType = FileType.DIRECTORY then
        let _ ← access pid cur Mode.EXEC
        let part := if part0 = "" then "." else part0
        let fs ← getFilesystem cur.filesystemId
        let fsRoot ← K.ofExcept fs.rootGet
        if fsRoot.iNumber = cur.iNumber ∧ part = ".." then
          let rootFs ← getRootFs
          let rootRoot ← K.ofExcept rootFs.rootGet
          if rootRoot = cur then
            traverseLoop pid cur rest
          else
            match fs.covered with
            | Option.none => K.raise (.kernelError .ENOENT)
            | some covRef => do
                let covered ← derefInodeRef covRef
                let child ← childLookup covered part
                traverseLoop pid child rest
        else
          let child ← childLookup cur part
          traverseLoop pid child rest
      else
        K.raise (.kernelError .ENOTDIR)

/-- Unix.traversePath. For CREATE / CREATE_EXCLUSIVE the final lookup is
`fs.inodes.get(...)`, but SelfKeyedDict defines no `get` method, so evaluating
the callee raises AttributeError before any argument is evaluated; the
create-on-miss code of source lines 293-304 is unreachable. -/
def traversePath (pid : Nat) (path : String) (op : INodeOperation) : K INode := do
  let s ← K.getSt
  if s.rootNode = Option.none then
    K.raise (Fault.kernelError Errno.ENOENT)
  let process ← getProcess pid
  let startNode ←
    if pyStartsWithSlash path then do
      let rootFs ← getRootFs
      K.ofExcept rootFs.rootGet
    else
      derefInodeRef process.currentDir
  let parts := splitPath path
  let travParts :=
    if op = INodeOperation.CREATE ∨ op = INodeOperation.CREATE_EXCLUSIVE ∨
        op = INodeOperation.PARENT then
      parts.dropLast
    else
      parts
  let node ← traverseLoop pid startNode travParts
  match op with
  | .GET => pure node
  | .PARENT => pure node
  | .CREATE | .CREATE_EXCLUSIVE => do
      let _fs ← getFilesystem node.filesystemId
      K.raise Fault.attrError

/-- Unix.getINodeFromPath. -/
def getINodeFromPath (pid : Nat) (path : String) : K INode :=
  traversePath pid path .GET

/-- Unix.createINodeAtPath with exclusive=False (the only call, from creat). -/
def createINodeAtPath (pid : Nat) (path : String) : K INode :=
  traversePath pid path .CREATE

/-- Unix.getINodeParentFromPath. -/
def getINodeParentFromPath (pid : Nat) (path : String) : K INode :=
  traversePath pid path .PARENT

/-- Unix.claimNextPid. -/
def claimNextPid : K Nat := fun s =>
  ({ s with nextPid := s.nextPid + 1 }, [], .ok s.nextPid)

/-- `process.fdTable[fd]`: raw dict indexing on the fd table, KeyError when the
fd is unknown. -/
def fdTableGet (process : ProcessEntry) (fd : Nat) : K ProcessFileDescriptor :=
  match dictGet process.fdTable fd with
  | some e => K.pure e
  | Option.none => K.raise Fault.keyError

/-- Unix.createFd. -/
def createFd (inode : INode) (flags : Nat) (pid : Nat) : K Nat := do
  let process ← getProcess pid
  let s ← K.getSt
  let ofdId := lowestFree (s.openFileTable.map Prod.fst)
  let ofd : OpenFileDescriptor :=
    { id := ofdId, mode := flags, file := (inode.filesystemId, inode.iNumber) }
  putOfd ofd
  let processFdNum := lowestFree (process.fdTable.map Prod.fst)
  putProcess { process with
    fdTable := dictSet process.fdTable processFdNum
      { id := processFdNum, openFd := ofdId } }
  if flags &&& OpenFlags.TRUNCATE ≠ 0 then
    match inode.data.trunc with
    | .error f => K.raise f
    | .ok d' => do
        putInode { inode with data := d' }
        let ofdNow ← getOfd ofdId
        putOfd { ofdNow with offset := 0 }
  pure processFdNum

/-- Unix.open. The `except FileNotFoundError` around path resolution is dead:
traversePath never raises that host exception. -/
def openSys (pid : Nat) (path : String) (flags : Nat) : K PyVal := do
  let inode ← getINodeFromPath pid path
  if OpenFlags.READ &&& flags = OpenFlags.READ then
    let _ ← access pid inode Mode.READ
  let flags ←
    if (OpenFlags.WRITE ||| OpenFlags.APPEND ||| OpenFlags.CREATE |||
        OpenFlags.TRUNCATE) &&& flags ≠ 0 then do
      let _ ← access pid inode Mode.WRITE
      pure (flags ||| OpenFlags.WRITE)
    else
      pure flags
  let processFdNum ← createFd inode flags pid
  syscallReturnSuccess pid (.int processFdNum)

/-- Unix.creat. Everything after the CREATE resolution mirrors source lines
371-377, but the resolution itself always raises (see traversePath). -/
def creatSys (pid : Nat) (path : String) (permissions : FilePermissions) : K PyVal := do
  let inode ← createINodeAtPath pid path
  if inode.fileType = FileType.DIRECTORY then
    K.raise (Fault.kernelError Errno.EISDIR)
  let inode := { inode with permissions := permissions }
  putInode inode
  let _ ← access pid inode Mode.WRITE
  let processFdNum ← createFd inode (OpenFlags.WRITE ||| OpenFlags.TRUNCATE) pid
  syscallReturnSuccess pid (.int processFdNum)

/-- Unix.lseek: sets the OFD offset per whence with no range check and returns
the (possibly negative) new offset. -/
def lseekSys (pid fd : Nat) (offset : Int) (whence : SeekFrom) : K PyVal := do
  let process ← getProcess pid
  let fdEntry ← fdTableGet process fd
  let ofdEntry ← getOfd fdEntry.openFd
  let newOffset ←
    match whence with
    | .SET => K.pure offset
    | .CURRENT => K.pure (ofdEntry.offset + offset)
    | .END => do
        let inode ← derefInodeRef ofdEntry.file
        pure (Int.ofNat inode.data.size + offset)
  putOfd { ofdEntry with offset := newOffset }
  syscallReturnSuccess pid (.int newOffset)

/-- Unix.read. -/
def readSys (pid fd : Nat) (size : Int) : K PyVal := do
  let process ← getProcess pid
  let fdEntry ← fdTableGet process fd
  let ofdEntry ← getOfd fdEntry.openFd
  if ¬ (OpenFlags.READ &&& ofdEntry.mode = OpenFlags.READ) then
    K.raise (Fault.kernelError Errno.EACCES)
  let inode ← derefInodeRef ofdEntry.file
  let data := inode.data.read size ofdEntry.offset
  putOfd { ofdEntry with offset := ofdEntry.offset + Int.ofNat data.length }
  syscallReturnSuccess pid (.str data)

/-- Unix.write. -/
def writeSys (pid fd : Nat) (data : List Char) : K PyVal := do
  let process ← getProcess pid
  let fdEntry ← fdTableGet process fd
  let ofdEntry ← getOfd fdEntry.openFd
  if ¬ (OpenFlags.WRITE &&& ofdEntry.mode = OpenFlags.WRITE) then
    K.raise (Fault.kernelError Errno.EACCES)
  let inode ← derefInodeRef ofdEntry.file
  if ofdEntry.mode &&& OpenFlags.APPEND ≠ 0 then
    let (d', numBytes) := inode.data.append data
    putInode { inode with data := d' }
    putOfd { ofdEntry with offset := Int.ofNat d'.size }
    syscallReturnSuccess pid (.int numBytes)
  else
    let (d', numBytes) := inode.data.write data ofdEntry.offset
    putInode { inode with data := d' }
    putOfd { ofdEntry with offset := ofdEntry.offset + numBytes }
    syscallReturnSuccess pid (.int numBytes)

/-- Unix.close. -/
def closeSys (pid fd : Nat) : K PyVal := do
  let process ← getProcess pid
  let fdEntry ← fdTableGet process fd
  let ofdEntry ← getOfd fdEntry.openFd
  let ofdEntry := { ofdEntry with refCount := ofdEntry.refCount - 1 }
  putOfd ofdEntry
  if ofdEntry.refCount = 0 then
    K.modifySt fun s =>
      { s with openFileTable := dictRemove s.openFileTable ofdEntry.id }
  putProcess { process with fdTable := dictRemove process.fdTable fd }
  syscallReturnSuccess pid PyVal.none

/-- Unix.chdir: a non-directory target raises KernelError ENOENT (source line
470), not ENOTDIR. -/
def chdirSys (pid : Nat) (path : String) : K PyVal := do
  let process ← getProcess pid
  let inode ← getINodeFromPath pid path
  if inode.fileType ≠ FileType.DIRECTORY then
    K.raise (Fault.kernelError Errno.ENOENT)
  let _ ← access pid inode Mode.EXEC
  putProcess { process with currentDir := (inode.filesystemId, inode.iNumber) }
  syscallReturnSuccess pid PyVal.none

/-- The try/except around `getINodeFromPath(pid, alias)` in Unix.link: a
successful resolution falls through without raising anything, a KernelError
with errno ENOENT is swallowed, and every other exception propagates. -/
def linkAliasCheck (pid : Nat) (aliasPath : String) : K Unit := fun s =>
  match getINodeFromPath pid aliasPath s with
  | (s', ms, .ok _) => (s', ms, .ok ())
  | (s', ms, .error (.kernelError .ENOENT)) => (s', ms, .ok ())
  | (s', ms, .error f) => (s', ms, .error f)

/-- Unix.link. -/
def linkSys (pid : Nat) (target aliasPath : String) : K PyVal := do
  let targetInode ← getINodeFromPath pid target
  if targetInode.fileType = FileType.DIRECTORY then
    K.raise (Fault.kernelError Errno.EISDIR)
  let parent ← getINodeParentFromPath pid aliasPath
  if targetInode.filesystemId ≠ parent.filesystemId then
    K.raise (Fault.kernelError Errno.EXDEV)
  linkAliasCheck pid aliasPath
  let childName := (pySplitSlash aliasPath).getLastD ""
  let d' ← K.ofExcept (parent.data.addChild childName targetInode.iNumber)
  putInode { parent with data := d' }
  putInode { targetInode with references := targetInode.references + 1 }
  syscallReturnSuccess pid PyVal.none

/-- Unix.waitpid. -/
def waitpidSys (pid childPid : Nat) : K PyVal := do
  let process ← getProcess pid
  let childProcess ← getProcess childPid
  if childProcess.ppid ≠ Int.ofNat pid then
    K.raise (Fault.kernelError Errno.ECHILD)
  if childProcess.status = ProcessStatus.ZOMBIE then do
    K.modifySt fun s => { s with processes := dictRemove s.processes childPid }
    syscallReturnSuccess pid (.tuple2 (Int.ofNat childPid) childProcess.exitCode)
  else do
    putProcess { process with status := ProcessStatus.WAITING }
    pure PyVal.none

/-- Unix.getuid: a direct read that replies with the real uid. -/
def getuidSys (pid : Nat) : K PyVal := do
  let process ← getProcess pid
  syscallReturnSuccess pid (.int process.realUid)

/-- Unix.geteuid: source lines 502-505 return `process.uid` without calling
syscallReturnSuccess, so no reply is ever written to the caller's pipe. -/
def geteuidSys (pid : Nat) : K PyVal := do
  let process ← getProcess pid
  pure (PyVal.int process.uid)

/-- Unix.fork, restricted to its kernel-state footprint: allocate a pid, build
the child ProcessEntry (inheriting real uid/gid and cwd, with a fresh empty fd
table), add it to the process table, reply with the child pid. Spawning the
host-level OS process and the SystemHandle carries no kernel state. -/
def forkSys (pid : Nat) (command : String) : K PyVal := do
  let process ← getProcess pid
  let childPid ← claimNextPid
  let childProcessEntry :=
    ProcessEntry.make childPid (Int.ofNat pid) command process.realUid
      process.realGid process.currentDir true
  K.modifySt fun s =>
    { s with processes := dictSet s.processes childPid childProcessEntry }
  syscallReturnSuccess pid (.int childPid)

/-- The fd-cleanup loop of Unix.exit: `ofd = self.openFileTable[fd.openFd.id]`
is raw dict indexing. -/
def closeLooseFds : List (Nat × ProcessFileDescriptor) → K Unit
  | [] => K.pure ()
  | (_, fdE) :: rest => do
      let ofd ← getOfd fdE.openFd
      let ofd := { ofd with refCount := ofd.refCount - 1 }
      putOfd ofd
      if ofd.refCount = 0 then
        K.modifySt fun s =>
          { s with openFileTable := dictRemove s.openFileTable ofd.id }
      closeLooseFds rest

/-- Unix.exit. The deferred waitpid reply sends the bare child pid (source
line 645), not the (pid, exitCode) pair. Closing the host pipe object has no
kernel-state footprint. -/
def exitSys (pid : Nat) (exitCode : Int) : K PyVal := do
  let process ← getProcess pid
  if process.status = ProcessStatus.ZOMBIE then
    pure PyVal.none
  else do
    let process := { process with status := ProcessStatus.ZOMBIE, exitCode := exitCode }
    putProcess process
    closeLooseFds process.fdTable
    if process.ppid ≥ 0 then do
      let parentProcess ← getProcess process.ppid.toNat
      if parentProcess.status = ProcessStatus.WAITING then do
        K.modifySt fun s => { s with processes := dictRemove s.processes pid }
        let _ ← syscallReturnSuccess process.ppid.toNat (.int pid)
        pure ()
    pure PyVal.none

/-- A request message as dispatched by Unix.start (the syscalls modelled here). -/
inductive Syscall where
  | fork (command : String)
  | open (path : String) (flags : Nat)
  | creat (path : String) (permissions : FilePermissions)
  | lseek (fd : Nat) (offset : Int) (whence : SeekFrom)
  | read (fd : Nat) (size : Int)
  | write (fd : Nat) (data : List Char)
  | close (fd : Nat)
  | link (target aliasPath : String)
  | chdir (path : String)
  | waitpid (childPid : Nat)
  | getuid
  | geteuid
  | exit (exitCode : Int)
deriving DecidableEq, Repr

def handle (pid : Nat) : Syscall → K PyVal
  | .fork command => forkSys pid command
  | .open path flags => openSys pid path flags
  | .creat path permissions => creatSys pid path permissions
  | .lseek fd offset whence => lseekSys pid fd offset whence
  | .read fd size => readSys pid fd size
  | .write fd data => writeSys pid fd data
  | .close fd => closeSys pid fd
  | .link target aliasPath => linkSys pid target aliasPath
  | .chdir path => chdirSys pid path
  | .waitpid childPid => waitpidSys pid childPid
  | .getuid => getuidSys pid
  | .geteuid => geteuidSys pid
  | .exit exitCode => exitSys pid exitCode

/-- One iteration of the dispatch loop in Unix.start for a request from `pid`:
run the handler; if it raised, send an error reply on the request's pipe with
the fault's errno (KernelError keeps its errno, anything else is PANIC). On
success the dispatcher sends nothing itself: a successful reply exists only if
the handler called syscallReturnSuccess. -/
def dispatch (s : UnixSt) (pid : Nat) (c : Syscall) : UnixSt × List Msg :=
  match handle pid c s with
  | (s', ms, .ok _) => (s', ms)
  | (s', ms, .error f) =>
      (s', ms ++ [{ pid := pid, val := PyVal.exc, errno := f.toErrno }])

/-! Association-list lemmas used by the general theorems. -/

theorem dictGet_set_self {κ α : Type} [DecidableEq κ] (l : List (κ × α)) (k : κ)
    (v : α) : dictGet (dictSet l k v) k = some v := by
  induction l with
  | nil => simp [dictGet, dictSet]
  | cons h t ih =>
      obtain ⟨k', v'⟩ := h
      by_cases hk : k' = k
      · subst hk
        simp [dictGet, dictSet]
      · simp [dictGet, dictSet, hk, ih]

theorem dictGet_set_ne {κ α : Type} [DecidableEq κ] (l : List (κ × α))
    (k k' : κ) (v : α) (h : k ≠ k') :
    dictGet (dictSet l k v) k' = dictGet l k' := by
  induction l with
  | nil => simp [dictGet, dictSet, h]
  | cons hd t ih =>
      obtain ⟨k0, v0⟩ := hd
      by_cases hk : k0 = k
      · subst hk
        simp [dictGet, dictSet, h]
      · simp only [dictSet, if_neg hk, dictGet]
        by_cases hk' : k0 = k'
        · simp [hk']
        · simp [hk', ih]

/-! Concrete states used by the evaluation theorems: one volume (uuid 1) with a
root directory holding regular files `a` and `b` and a subdirectory `d`, and a
root-owned process (pid 0) whose current directory is the root. -/

def permAll : FilePermissions := FilePermissions.parsePermissions 493

def permRW : FilePermissions := FilePermissions.parsePermissions 420

def rootChildren : List (String × Nat) :=
  [(".", 1), ("..", 1), ("a", 2), ("b", 3), ("d", 4)]

def rootDirInode : INode :=
  { iNumber := 1, permissions := permAll, fileType := .DIRECTORY, owner := 0,
    group := 0, timeCreated := 0, timeModified := 0,
    data := { dataStr := makeDirData rootChildren, children := some rootChildren },
    filesystemId := 1, references := 2 }

def fileA : INode :=
  { iNumber := 2, permissions := permRW, fileType := .REGULAR, owner := 0,
    group := 0, timeCreated := 0, timeModified := 0,
    data := { dataStr := "hello".data, children := Option.none },
    filesystemId := 1, references := 1 }

def fileB : INode :=
  { iNumber := 3, permissions := permRW, fileType := .REGULAR, owner := 0,
    group := 0, timeCreated := 0, timeModified := 0,
    data := { dataStr := "world".data, children := Option.none },
    filesystemId := 1, references := 1 }

def dChildren : List (String × Nat) := [(".", 4), ("..", 1)]

def dirD : INode :=
  { iNumber := 4, permissions := permAll, fileType := .DIRECTORY, owner := 0,
    group := 0, timeCreated := 0, timeModified := 0,
    data := { dataStr := makeDirData dChildren, children := some dChildren },
    filesystemId := 1, references := 2 }

def fs1 : Filesystem :=
  { uuid := 1, inodes := [(1, rootDirInode), (2, fileA), (3, fileB), (4, dirD)],
    rootINum := some 1, nextINumber := 5 }

def proc0 : ProcessEntry :=
  { pid := 0, ppid := 0, command := "sh", realUid := 0, realGid := 0,
    currentDir := (1, 1), uid := 0, gid := 0, pipe := true }

def st1 : UnixSt :=
  { filesystems := [(1, fs1)], rootNode := some 1, processes := [(0, proc0)],
    nextPid := 1 }

/-- Fetch an inode of a state by `(filesystemId, iNumber)`. -/
def stInode (s : UnixSt) (fsId iN : Nat) : Option INode :=
  match dictGet s.filesystems fsId with
  | some fs => dictGet fs.inodes iN
  | Option.none => Option.none

/-- C1: creat on a path whose final component does not exist never reaches the
intended allocate-and-insert branch: the CREATE resolution evaluates
`fs.inodes.get`, SelfKeyedDict has no `get` method, and the resulting
AttributeError escapes to the dispatcher, which replies with errno PANIC and
leaves the state unchanged. The spec's creation behaviour (fresh REGULAR inode,
inherited permissions, caller's uid/gid, returned FD) never happens. -/
theorem creat_attribute_error_panic :
    dispatch st1 0 (.creat "/newfile" permRW) =
      (st1, [{ pid := 0, val := PyVal.exc, errno := Errno.PANIC }]) ∧
    creatSys 0 "/newfile" permRW st1 = (st1, [], .error Fault.attrError) := by
  constructor
  · rfl
  · rfl

/-- C5: the geteuid handler returns `process.uid` without calling
syscallReturnSuccess, so no reply message is ever produced for a geteuid
request, while the sibling getuid call does reply. The caller's blocking
`recv` therefore never returns. -/
theorem geteuid_no_reply :
    dispatch st1 0 .geteuid = (st1, []) ∧
    dispatch st1 0 .getuid =
      (st1, [{ pid := 0, val := PyVal.int 0, errno := Errno.NONE }]) := by
  constructor
  · rfl
  · rfl

/-! States for the waitpid/exit scenario: parent pid 1, child pid 2. -/

def procParent : ProcessEntry :=
  { pid := 1, ppid := 0, command := "sh", realUid := 0, realGid := 0,
    currentDir := (1, 1), uid := 0, gid := 0, pipe := true }

def procChild : ProcessEntry :=
  { pid := 2, ppid := 1, command := "yes", realUid := 0, realGid := 0,
    currentDir := (1, 1), uid := 0, gid := 0, pipe := true }

def stWait : UnixSt :=
  { filesystems := [(1, fs1)], rootNode := some 1,
    processes := [(1, procParent), (2, procChild)], nextPid := 3 }

def stZomb : UnixSt :=
  { filesystems := [(1, fs1)], rootNode := some 1,
    processes := [(1, procParent),
      (2, { procChild with status := ProcessStatus.ZOMBIE, exitCode := 7 })],
    nextPid := 3 }

/-- C2: when the child is already a zombie, waitpid replies with the pair
(childPid, exitCode); but in the deferred case the exit handler replies to the
blocked parent with the bare child pid (source line 645), not the pair, so the
two paths deliver differently-shaped values. Here the parent waits on the
running child (no reply yet, parent marked WAITING), the child exits with code
42, and the parent receives the int 2 instead of the tuple (2, 42). -/
theorem waitpid_deferred_reply_bare_pid :
    (dispatch stWait 1 (.waitpid 2)).2 = [] ∧
    (dictGet (dispatch stWait 1 (.waitpid 2)).1.processes 1).map
        (fun p => p.status) = some ProcessStatus.WAITING ∧
    (dispatch (dispatch stWait 1 (.waitpid 2)).1 2 (.exit 42)).2 =
      [{ pid := 1, val := PyVal.int 2, errno := Errno.NONE }] ∧
    (dispatch stZomb 1 (.waitpid 2)).2 =
      [{ pid := 1, val := PyVal.tuple2 2 7, errno := Errno.NONE }] := by
  refine ⟨rfl, rfl, rfl, rfl⟩

/-- C4: link(target, alias) with an already-existing alias does not fail with
EEXIST: the existence probe's successful resolution is silently discarded, the
parent directory's entry for the alias name is overwritten to point at the
target's inumber, the target's reference count is incremented, and the call
replies success. The displaced inode keeps its old reference count while no
directory entry names it any more. -/
theorem link_existing_alias_overwrites :
    (dispatch st1 0 (.link "/a" "/b")).2 =
      [{ pid := 0, val := PyVal.none, errno := Errno.NONE }] ∧
    ((stInode (dispatch st1 0 (.link "/a" "/b")).1 1 1).map
        (fun i => i.data.children)) =
      some (some [(".", 1), ("..", 1), ("a", 2), ("b", 2), ("d", 4)]) ∧
    ((stInode (dispatch st1 0 (.link "/a" "/b")).1 1 2).map
        (fun i => i.references)) = some 2 ∧
    ((stInode (dispatch st1 0 (.link "/a" "/b")).1 1 3).map
        (fun i => i.references)) = some 1 := by
  refine ⟨rfl, rfl, rfl, rfl⟩

/-! A single-file world used by the fd-level theorems: a root directory with
one regular file `f` (inode 2) and a process (pid 0) holding fd 0 on it. -/

def fChildren : List (String × Nat) := [(".", 1), ("..", 1), ("f", 2)]

def mkRootDir : INode :=
  { iNumber := 1, permissions := permAll, fileType := .DIRECTORY, owner := 0,
    group := 0, timeCreated := 0, timeModified := 0,
    data := { dataStr := makeDirData fChildren, children := some fChildren },
    filesystemId := 1, references := 2 }

def mkFileInode (content : List Char) : INode :=
  { iNumber := 2, permissions := permRW, fileType := .REGULAR, owner := 0,
    group := 0, timeCreated := 0, timeModified := 0,
    data := { dataStr := content, children := Option.none },
    filesystemId := 1, references := 1 }

def mkOfd (mode : Nat) (off : Int) : OpenFileDescriptor :=
  { id := 0, mode := mode, file := (1, 2), refCount := 1, offset := off }

def mkProcFd : ProcessEntry :=
  { proc0 with fdTable := [(0, { id := 0, openFd := 0 })] }

def mkFs (content : List Char) : Filesystem :=
  { uuid := 1, inodes := [(1, mkRootDir), (2, mkFileInode content)],
    rootINum := some 1, nextINumber := 3 }

def mkFileSt (content : List Char) (mode : Nat) (off : Int) : UnixSt :=
  { filesystems := [(1, mkFs content)],
    rootNode := some 1, processes := [(0, mkProcFd)],
    openFileTable := [(0, mkOfd mode off)], nextPid := 1 }

/-- C6 counterexample: closing an fd that is not in the process's fd table does
not produce a KernelError with a bad-file-descriptor errno (the Errno enum of
kernel/errors.py has no EBADF at all): the raw KeyError of
`process.fdTable[fd]` escapes and the dispatcher replies with errno PANIC. The
tables are unchanged, as the claim says. -/
theorem close_unknown_fd_cx :
    closeSys 0 5 st1 = (st1, [], .error Fault.keyError) ∧
    dispatch st1 0 (.close 5) =
      (st1, [{ pid := 0, val := PyVal.exc, errno := Errno.PANIC }]) ∧
    Errno.PANIC ≠ Errno.EINVAL := by
  refine ⟨rfl, rfl, by decide⟩

/-- C6 amended: close on an fd absent from the caller's fd table raises a raw
Python KeyError (reported by the dispatcher as errno PANIC), and both the
open-file table and the fd table are unchanged. -/
theorem close_unknown_fd_keyError (s : UnixSt) (pid fd : Nat)
    (p : ProcessEntry) (hp : dictGet s.processes pid = some p)
    (hfd : dictGet p.fdTable fd = Option.none) :
    closeSys pid fd s = (s, [], .error Fault.keyError) ∧
    dispatch s pid (.close fd) =
      (s, [{ pid := pid, val := PyVal.exc, errno := Errno.PANIC }]) := by
  have h1 : closeSys pid fd s = (s, [], .error Fault.keyError) := by
    simp [closeSys, K.bind_eq, K.bind, getProcess, hp, fdTableGet, hfd, K.raise]
  refine ⟨h1, ?_⟩
  simp [dispatch, handle, h1, Fault.toErrno]

theorem close_unknown_fd_keyError_witness :
    closeSys 2 9 stWait = (stWait, [], .error Fault.keyError) ∧
    dispatch stWait 2 (.close 9) =
      (stWait, [{ pid := 2, val := PyVal.exc, errno := Errno.PANIC }]) := by
  exact close_unknown_fd_keyError stWait 2 9 procChild rfl rfl

/-- C7 counterexample: chdir to a path resolving to a regular file fails with
errno ENOENT (source line 470), not ENOTDIR; currentDir is unchanged. -/
theorem chdir_notdir_errno_cx :
    dispatch st1 0 (.chdir "/a") =
      (st1, [{ pid := 0, val := PyVal.exc, errno := Errno.ENOENT }]) ∧
    Errno.ENOENT ≠ Errno.ENOTDIR := by
  refine ⟨rfl, by decide⟩

/-- C7 amended: when the path resolves to a non-directory, chdir raises
KernelError ENOENT (not ENOTDIR) and the caller's currentDir is unchanged;
when it resolves to a directory and the EXEC access check passes, currentDir
becomes that inode and the call replies success. -/
theorem chdir_spec_amended (s : UnixSt) (pid : Nat) (path : String)
    (p : ProcessEntry) (inode : INode)
    (hp : dictGet s.processes pid = some p)
    (hres : getINodeFromPath pid path s = (s, [], .ok inode)) :
    (inode.fileType ≠ FileType.DIRECTORY →
      chdirSys pid path s = (s, [], .error (Fault.kernelError Errno.ENOENT))) ∧
    (inode.fileType = FileType.DIRECTORY →
      ∀ b, access pid inode Mode.EXEC s = (s, [], .ok b) →
      p.pid = pid → p.pipe = true →
      chdirSys pid path s =
        ({ s with processes := dictSet s.processes pid ({ p with currentDir := (inode.filesystemId, inode.iNumber) }) },
         [{ pid := pid, val := PyVal.none, errno := Errno.NONE }],
         .ok PyVal.none)) := by
  constructor
  · intro hne
    simp [chdirSys, K.bind_eq, K.bind, getProcess, hp, hres, hne, K.raise]
  · intro hdir b haccess hpid hpipe
    simp [chdirSys, K.bind_eq, K.bind, K.pure_eq, K.pure, getProcess, hp, hres,
      hdir, haccess, putProcess, K.modifySt, syscallReturnSuccess, hpid,
      dictGet_set_self, hpipe, K.send]

theorem chdir_spec_amended_witness :
    chdirSys 0 "/a" st1 = (st1, [], .error (Fault.kernelError Errno.ENOENT)) ∧
    chdirSys 0 "/d" st1 =
      ({ st1 with processes := dictSet st1.processes 0 ({ proc0 with currentDir := (dirD.filesystemId, dirD.iNumber) }) },
       [{ pid := 0, val := PyVal.none, errno := Errno.NONE }],
       .ok PyVal.none) := by
  refine ⟨(chdir_spec_amended st1 0 "/a" proc0 fileA rfl rfl).1 (by decide),
    (chdir_spec_amended st1 0 "/d" proc0 dirD rfl rfl).2 rfl true rfl rfl rfl⟩

/-- The new offset Unix.lseek computes for each whence value. -/
def lseekTarget (whence : SeekFrom) (ofd : OpenFileDescriptor) (off : Int)
    (inode : INode) : Int :=
  match whence with
  | .SET => off
  | .CURRENT => ofd.offset + off
  | .END => Int.ofNat inode.data.size + off

/-- C8 counterexample: lseek with SET to a negative offset does not fail with
EINVAL: the reply is a success carrying the new offset -5, and the OFD offset
is changed to -5. -/
theorem lseek_negative_cx :
    dispatch (mkFileSt "hello".data 3 0) 0 (.lseek 0 (-5) .SET) =
      ({ mkFileSt "hello".data 3 0 with
          openFileTable := [(0, { mkOfd 3 0 with offset := -5 })] },
       [{ pid := 0, val := PyVal.int (-5), errno := Errno.NONE }]) ∧
    ((dictGet (dispatch (mkFileSt "hello".data 3 0) 0 (.lseek 0 (-5) .SET)).1.openFileTable 0).map
        (fun o => o.offset)) = some (-5) := by
  refine ⟨rfl, rfl⟩

/-- General evaluation of lseek on a valid fd: the computed offset is stored
unconditionally and returned. -/
theorem lseekSys_eval (s : UnixSt) (pid fd : Nat) (off : Int)
    (whence : SeekFrom) (p : ProcessEntry) (fdE : ProcessFileDescriptor)
    (ofd : OpenFileDescriptor) (inode : INode)
    (hp : dictGet s.processes pid = some p)
    (hfd : dictGet p.fdTable fd = some fdE)
    (hofd : dictGet s.openFileTable fdE.openFd = some ofd)
    (hofdid : ofd.id = fdE.openFd)
    (hinode : derefInodeRef ofd.file s = (s, [], .ok inode))
    (hpipe : p.pipe = true) :
    lseekSys pid fd off whence s =
      ({ s with openFileTable := dictSet s.openFileTable ofd.id ({ ofd with offset := lseekTarget whence ofd off inode }) },
       [{ pid := pid, val := PyVal.int (lseekTarget whence ofd off inode),
          errno := Errno.NONE }],
       .ok (PyVal.int (lseekTarget whence ofd off inode))) := by
  cases whence with
  | SET =>
      simp [lseekSys, lseekTarget, K.bind_eq, K.bind, K.pure_eq, K.pure,
        getProcess, hp, fdTableGet, hfd, getOfd, hofd, hofdid, putOfd,
        K.modifySt, syscallReturnSuccess, hpipe, K.send]
  | CURRENT =>
      simp [lseekSys, lseekTarget, K.bind_eq, K.bind, K.pure_eq, K.pure,
        getProcess, hp, fdTableGet, hfd, getOfd, hofd, hofdid, putOfd,
        K.modifySt, syscallReturnSuccess, hpipe, K.send]
  | END =>
      simp [lseekSys, lseekTarget, K.bind_eq, K.bind, K.pure_eq, K.pure,
        getProcess, hp, fdTableGet, hfd, getOfd, hofd, hofdid, hinode, putOfd,
        K.modifySt, syscallReturnSuccess, hpipe, K.send]

/-- C8 amended: lseek never checks the resulting offset: for every valid fd it
stores the computed offset (offset for SET, ofd.offset + offset for CUR,
size + offset for END) into the OFD unconditionally — negative values included
— and replies success with that offset (never EINVAL). -/
theorem lseek_never_einval (s : UnixSt) (pid fd : Nat) (off : Int)
    (whence : SeekFrom) (p : ProcessEntry) (fdE : ProcessFileDescriptor)
    (ofd : OpenFileDescriptor) (inode : INode)
    (hp : dictGet s.processes pid = some p)
    (hfd : dictGet p.fdTable fd = some fdE)
    (hofd : dictGet s.openFileTable fdE.openFd = some ofd)
    (hofdid : ofd.id = fdE.openFd)
    (hinode : derefInodeRef ofd.file s = (s, [], .ok inode))
    (hpipe : p.pipe = true) :
    lseekSys pid fd off whence s =
      ({ s with openFileTable := dictSet s.openFileTable ofd.id ({ ofd with offset := lseekTarget whence ofd off inode }) },
       [{ pid := pid, val := PyVal.int (lseekTarget whence ofd off inode),
          errno := Errno.NONE }],
       .ok (PyVal.int (lseekTarget whence ofd off inode))) :=
  lseekSys_eval s pid fd off whence p fdE ofd inode hp hfd hofd hofdid hinode hpipe

theorem lseek_never_einval_witness :
    lseekSys 0 0 (-7) .END (mkFileSt "hello".data 3 0) =
      ({ mkFileSt "hello".data 3 0 with openFileTable := dictSet (mkFileSt "hello".data 3 0).openFileTable 0 ({ mkOfd 3 0 with offset := lseekTarget .END (mkOfd 3 0) (-7) (mkFileInode "hello".data) }) },
       [{ pid := 0, val := PyVal.int (lseekTarget .END (mkOfd 3 0) (-7) (mkFileInode "hello".data)),
          errno := Errno.NONE }],
       .ok (PyVal.int (lseekTarget .END (mkOfd 3 0) (-7) (mkFileInode "hello".data)))) := by
  exact lseek_never_einval (mkFileSt "hello".data 3 0) 0 0 (-7) .END mkProcFd
    { id := 0, openFd := 0 } (mkOfd 3 0) (mkFileInode "hello".data) rfl rfl rfl rfl rfl rfl

/-- C3 counterexample: after a fork by a parent holding fd 0 on open file
description 0 (refCount 1), the child entry's fd table is empty — not a
duplicate of the parent's non-empty table — and the OFD's refCount is still 1,
not incremented. -/
theorem fork_no_fd_duplication_cx :
    ((dictGet (dispatch (mkFileSt "hello".data 3 0) 0 (.fork "child")).1.processes 1).map
        (fun p => p.fdTable)) = some [] ∧
    ((dictGet (mkFileSt "hello".data 3 0).processes 0).map (fun p => p.fdTable)) =
      some [(0, { id := 0, openFd := 0 })] ∧
    ((dictGet (dispatch (mkFileSt "hello".data 3 0) 0 (.fork "child")).1.openFileTable 0).map
        (fun o => o.refCount)) = some 1 := by
  refine ⟨rfl, rfl, rfl⟩

/-- C3 amended: fork does not copy the parent's fd table at all: the child
process entry is created by the ProcessEntry constructor with its default
empty fd table, and the open file table — including every refCount — is left
unchanged. -/
theorem fork_child_empty_fdTable (s : UnixSt) (pid : Nat) (command : String)
    (p : ProcessEntry) (hp : dictGet s.processes pid = some p)
    (hnp : s.nextPid ≠ pid) (hpipe : p.pipe = true) :
    forkSys pid command s =
      ({ s with processes := dictSet s.processes s.nextPid (ProcessEntry.make s.nextPid (Int.ofNat pid) command p.realUid p.realGid p.currentDir true), nextPid := s.nextPid + 1 },
       [{ pid := pid, val := PyVal.int (Int.ofNat s.nextPid), errno := Errno.NONE }],
       .ok (PyVal.int (Int.ofNat s.nextPid))) ∧
    (ProcessEntry.make s.nextPid (Int.ofNat pid) command p.realUid p.realGid
        p.currentDir true).fdTable = [] ∧
    (forkSys pid command s).1.openFileTable = s.openFileTable := by
  have h1 : forkSys pid command s =
      ({ s with processes := dictSet s.processes s.nextPid (ProcessEntry.make s.nextPid (Int.ofNat pid) command p.realUid p.realGid p.currentDir true), nextPid := s.nextPid + 1 },
       [{ pid := pid, val := PyVal.int (Int.ofNat s.nextPid), errno := Errno.NONE }],
       .ok (PyVal.int (Int.ofNat s.nextPid))) := by
    simp [forkSys, K.bind_eq, K.bind, K.pure_eq, K.pure, getProcess, hp,
      claimNextPid, K.modifySt, syscallReturnSuccess, K.send,
      dictGet_set_ne _ _ _ _ hnp, hp, hpipe]
  refine ⟨h1, rfl, ?_⟩
  rw [h1]

/-- For 0 ≤ o ≤ len(c), Python's `c[:o]` is the o-character prefix. -/
theorem pyTake_eq_take (c : List Char) (o : Int) (h0 : 0 ≤ o)
    (h1 : o ≤ Int.ofNat c.length) : pyTake c o = c.take o.toNat := by
  simp only [Int.ofNat_eq_natCast] at h1
  have hn : o.toNat ≤ c.length := by omega
  rw [pyTake, pyIdx, if_neg (by omega), min_eq_left hn]

/-- Reading len(str) characters at offset o from `c[:o] + str` returns str,
for 0 ≤ o ≤ len(c). -/
theorem pySlice_take_append (c str : List Char) (o : Int) (h0 : 0 ≤ o)
    (h1 : o ≤ Int.ofNat c.length) :
    pySlice (c.take o.toNat ++ str) o (o + Int.ofNat str.length) = str := by
  simp only [Int.ofNat_eq_natCast] at h1 ⊢
  have hn : o.toNat ≤ c.length := by omega
  have htake : (c.take o.toNat).length = o.toNat := by
    simp [min_eq_left hn]
  have hlen : (c.take o.toNat ++ str).length = o.toNat + str.length := by
    simp [htake]
  have hb : pyIdx (c.take o.toNat ++ str).length (o + (str.length : Int)) =
      o.toNat + str.length := by
    rw [hlen, pyIdx, if_neg (by omega)]
    have hx : (o + (str.length : Int)).toNat = o.toNat + str.length := by omega
    rw [hx, min_self]
  have ha : pyIdx (c.take o.toNat ++ str).length o = o.toNat := by
    rw [hlen, pyIdx, if_neg (by omega)]
    exact min_eq_left (Nat.le_add_right _ _)
  rw [pySlice, ha, hb, ← hlen, List.take_length]
  nth_rewrite 1 [← htake]
  exact List.drop_left _ _

/-- General evaluation of write on a valid fd of a regular file opened without
APPEND: the content becomes `old[:offset] + data`, the tail of the old content
is discarded, the offset advances by len(data), and len(data) is returned. -/
theorem writeSys_eval (s : UnixSt) (pid fd : Nat) (str c : List Char) (o : Int)
    (p : ProcessEntry) (fdE : ProcessFileDescriptor) (ofd : OpenFileDescriptor)
    (fs : Filesystem) (inode : INode)
    (hp : dictGet s.processes pid = some p)
    (hfd : dictGet p.fdTable fd = some fdE)
    (hofd : dictGet s.openFileTable fdE.openFd = some ofd)
    (hofdid : ofd.id = fdE.openFd)
    (hfile : ofd.file = (inode.filesystemId, inode.iNumber))
    (hfs : dictGet s.filesystems inode.filesystemId = some fs)
    (hino : dictGet fs.inodes inode.iNumber = some inode)
    (hdata : inode.data = { dataStr := c, children := Option.none })
    (hw : OpenFlags.WRITE &&& ofd.mode = OpenFlags.WRITE)
    (hna : ofd.mode &&& OpenFlags.APPEND = 0)
    (hoff : ofd.offset = o) :
    writeSys pid fd str s =
      (({ s with filesystems := dictSet s.filesystems inode.filesystemId ({ fs with inodes := dictSet fs.inodes inode.iNumber ({ inode with data := { dataStr := pyTake c o ++ str, children := Option.none } }) }), openFileTable := dictSet s.openFileTable ofd.id ({ ofd with offset := o + Int.ofNat str.length }) } : UnixSt),
       if p.pipe then [{ pid := pid, val := PyVal.int (Int.ofNat str.length), errno := Errno.NONE }] else [],
       .ok (PyVal.int (Int.ofNat str.length))) := by
  by_cases hpipe : p.pipe <;>
    simp [writeSys, K.bind_eq, K.bind, K.pure_eq, K.pure, getProcess, hp,
      fdTableGet, hfd, getOfd, hofd, hofdid, hfile, derefInodeRef, hfs, hino,
      hdata, hw, hna, hoff, INodeData.write, putInode, putOfd, K.modifySt,
      syscallReturnSuccess, hpipe, K.send, dictGet_set_self]

/-- General evaluation of read on a valid fd with READ access: returns the
slice `content[offset : offset + size]` and advances the offset by its length. -/
theorem readSys_eval (s : UnixSt) (pid fd : Nat) (size : Int)
    (p : ProcessEntry) (fdE : ProcessFileDescriptor) (ofd : OpenFileDescriptor)
    (fs : Filesystem) (inode : INode)
    (hp : dictGet s.processes pid = some p)
    (hfd : dictGet p.fdTable fd = some fdE)
    (hofd : dictGet s.openFileTable fdE.openFd = some ofd)
    (hofdid : ofd.id = fdE.openFd)
    (hfile : ofd.file = (inode.filesystemId, inode.iNumber))
    (hfs : dictGet s.filesystems inode.filesystemId = some fs)
    (hino : dictGet fs.inodes inode.iNumber = some inode)
    (hr : OpenFlags.READ &&& ofd.mode = OpenFlags.READ) :
    readSys pid fd size s =
      (({ s with openFileTable := dictSet s.openFileTable ofd.id ({ ofd with offset := ofd.offset + Int.ofNat (inode.data.read size ofd.offset).length }) } : UnixSt),
       if p.pipe then [{ pid := pid, val := PyVal.str (inode.data.read size ofd.offset), errno := Errno.NONE }] else [],
       .ok (PyVal.str (inode.data.read size ofd.offset))) := by
  by_cases hpipe : p.pipe <;>
    simp [readSys, K.bind_eq, K.bind, K.pure_eq, K.pure, getProcess, hp,
      fdTableGet, hfd, getOfd, hofd, hofdid, hfile, derefInodeRef, hfs, hino,
      hr, putOfd, K.modifySt, syscallReturnSuccess, hpipe, K.send,
      dictGet_set_self]

theorem fork_child_empty_fdTable_witness :
    forkSys 0 "child" (mkFileSt "hello".data 3 0) =
      ({ mkFileSt "hello".data 3 0 with processes := dictSet (mkFileSt "hello".data 3 0).processes 1 (ProcessEntry.make 1 (Int.ofNat 0) "child" mkProcFd.realUid mkProcFd.realGid mkProcFd.currentDir true), nextPid := 2 },
       [{ pid := 0, val := PyVal.int (Int.ofNat 1), errno := Errno.NONE }],
       .ok (PyVal.int (Int.ofNat 1))) ∧
    (ProcessEntry.make 1 (Int.ofNat 0) "child" mkProcFd.realUid mkProcFd.realGid
        mkProcFd.currentDir true).fdTable = [] ∧
    (forkSys 0 "child" (mkFileSt "hello".data 3 0)).1.openFileTable =
      (mkFileSt "hello".data 3 0).openFileTable := by
  exact fork_child_empty_fdTable (mkFileSt "hello".data 3 0) 0 "child" mkProcFd
    rfl (by decide) rfl

/-- C10 counterexample: writing "ab" through an OFD whose offset (5) lies past
the end of the empty file leaves content "ab" of size 2, not the o + len(s) = 7
the claim promises (the gap is not filled; `c[:5]` of the empty string is
empty). -/
theorem write_beyond_eof_cx :
    ((stInode (writeSys 0 0 "ab".data (mkFileSt [] 3 5)).1 1 2).map
        (fun i => i.data.dataStr)) = some "ab".data ∧
    ((stInode (writeSys 0 0 "ab".data (mkFileSt [] 3 5)).1 1 2).map
        (fun i => Int.ofNat i.data.dataStr.length)) = some 2 ∧
    ((2 : Int) ≠ 5 + 2) := by
  refine ⟨rfl, rfl, by decide⟩

/-- C10 amended: for a write of `str` on a regular file with old content `c`
through an OFD without APPEND whose offset o satisfies 0 ≤ o ≤ len(c), the
content becomes exactly the o-character prefix of c followed by str (every old
byte at position ≥ o + len(str) is discarded), the size becomes o + len(str),
len(str) is returned, and the OFD offset advances to o + len(str). -/
theorem write_truncates_tail (s : UnixSt) (pid fd : Nat) (str c : List Char)
    (o : Int) (p : ProcessEntry) (fdE : ProcessFileDescriptor)
    (ofd : OpenFileDescriptor) (fs : Filesystem) (inode : INode)
    (hp : dictGet s.processes pid = some p)
    (hfd : dictGet p.fdTable fd = some fdE)
    (hofd : dictGet s.openFileTable fdE.openFd = some ofd)
    (hofdid : ofd.id = fdE.openFd)
    (hfile : ofd.file = (inode.filesystemId, inode.iNumber))
    (hfs : dictGet s.filesystems inode.filesystemId = some fs)
    (hino : dictGet fs.inodes inode.iNumber = some inode)
    (hdata : inode.data = { dataStr := c, children := Option.none })
    (hw : OpenFlags.WRITE &&& ofd.mode = OpenFlags.WRITE)
    (hna : ofd.mode &&& OpenFlags.APPEND = 0)
    (hoff : ofd.offset = o) (h0 : 0 ≤ o) (h1 : o ≤ Int.ofNat c.length)
    (hpipe : p.pipe = true) :
    writeSys pid fd str s =
      (({ s with filesystems := dictSet s.filesystems inode.filesystemId ({ fs with inodes := dictSet fs.inodes inode.iNumber ({ inode with data := { dataStr := c.take o.toNat ++ str, children := Option.none } }) }), openFileTable := dictSet s.openFileTable ofd.id ({ ofd with offset := o + Int.ofNat str.length }) } : UnixSt),
       [{ pid := pid, val := PyVal.int (Int.ofNat str.length), errno := Errno.NONE }],
       .ok (PyVal.int (Int.ofNat str.length))) ∧
    pyTake c o = c.take o.toNat ∧
    Int.ofNat (c.take o.toNat ++ str).length = o + Int.ofNat str.length := by
  have hpt : pyTake c o = c.take o.toNat := pyTake_eq_take c o h0 h1
  have hev := writeSys_eval s pid fd str c o p fdE ofd fs inode hp hfd hofd
    hofdid hfile hfs hino hdata hw hna hoff
  rw [hpt, hpipe] at hev
  refine ⟨by simpa using hev, hpt, ?_⟩
  simp only [Int.ofNat_eq_natCast] at h1 ⊢
  have hn : o.toNat ≤ c.length := by omega
  have : (c.take o.toNat).length = o.toNat := by simp [min_eq_left hn]
  simp [this]
  omega

theorem write_truncates_tail_witness :
    writeSys 0 0 "ab".data (mkFileSt "hello".data 3 2) =
      (({ mkFileSt "hello".data 3 2 with filesystems := dictSet (mkFileSt "hello".data 3 2).filesystems (mkFileInode "hello".data).filesystemId ({ mkFs "hello".data with inodes := dictSet (mkFs "hello".data).inodes (mkFileInode "hello".data).iNumber ({ mkFileInode "hello".data with data := { dataStr := "hello".data.take (2 : Int).toNat ++ "ab".data, children := Option.none } }) }), openFileTable := dictSet (mkFileSt "hello".data 3 2).openFileTable (mkOfd 3 2).id ({ mkOfd 3 2 with offset := 2 + Int.ofNat "ab".data.length }) } : UnixSt),
       [{ pid := 0, val := PyVal.int (Int.ofNat "ab".data.length), errno := Errno.NONE }],
       .ok (PyVal.int (Int.ofNat "ab".data.length))) ∧
    pyTake "hello".data 2 = "hello".data.take (2 : Int).toNat ∧
    Int.ofNat ("hello".data.take (2 : Int).toNat ++ "ab".data).length =
      2 + Int.ofNat "ab".data.length := by
  exact write_truncates_tail (mkFileSt "hello".data 3 2) 0 0 "ab".data
    "hello".data 2 mkProcFd { id := 0, openFd := 0 } (mkOfd 3 2)
    (mkFs "hello".data) (mkFileInode "hello".data) rfl rfl rfl rfl rfl rfl rfl
    rfl rfl rfl rfl (by decide) (by decide) rfl

/-- The sequence write(fd, s); lseek(fd, -len(s), CUR); read(fd, len(s)) as one
kernel-side program; its final Except component is the read's result. -/
def writeSeekRead (pid fd : Nat) (str : List Char) : K PyVal := do
  let _ ← writeSys pid fd str
  let _ ← lseekSys pid fd (-(Int.ofNat str.length)) SeekFrom.CURRENT
  readSys pid fd (Int.ofNat str.length)

/-- C9 counterexample: with the OFD offset (5) past the end of the empty file,
write "ab"; lseek -2 CUR; read 2 returns the empty string, not "ab": the claim
fails for offsets beyond the end of the file. -/
theorem write_seek_read_cx :
    (writeSeekRead 0 0 "ab".data (mkFileSt [] 3 5)).2.2 =
      Except.ok (PyVal.str []) ∧
    ([] : List Char) ≠ "ab".data := by
  refine ⟨rfl, by decide⟩

/-- C9 amended: on a regular file open for read and write (without APPEND),
when the OFD offset o satisfies 0 ≤ o ≤ len(content), the sequence
write(fd, s); lseek(fd, -len(s), CUR); read(fd, len(s)) returns exactly s. -/
theorem write_seek_read_roundtrip (s : UnixSt) (pid fd : Nat) (str c : List Char)
    (o : Int) (p : ProcessEntry) (fdE : ProcessFileDescriptor)
    (ofd : OpenFileDescriptor) (fs : Filesystem) (inode : INode)
    (hp : dictGet s.processes pid = some p)
    (hfd : dictGet p.fdTable fd = some fdE)
    (hofd : dictGet s.openFileTable fdE.openFd = some ofd)
    (hofdid : ofd.id = fdE.openFd)
    (hfile : ofd.file = (inode.filesystemId, inode.iNumber))
    (hfs : dictGet s.filesystems inode.filesystemId = some fs)
    (hino : dictGet fs.inodes inode.iNumber = some inode)
    (hdata : inode.data = { dataStr := c, children := Option.none })
    (hr : OpenFlags.READ &&& ofd.mode = OpenFlags.READ)
    (hw : OpenFlags.WRITE &&& ofd.mode = OpenFlags.WRITE)
    (hna : ofd.mode &&& OpenFlags.APPEND = 0)
    (hoff : ofd.offset = o) (h0 : 0 ≤ o) (h1 : o ≤ Int.ofNat c.length)
    (hpipe : p.pipe = true) :
    (writeSeekRead pid fd str s).2.2 = Except.ok (PyVal.str str) := by
  have hps : pySlice (List.take o.toNat c ++ str) o (o + (str.length : Int)) =
      str := by
    simpa using pySlice_take_append c str o h0 h1
  simp [writeSeekRead, K.bind_eq, K.bind, K.pure_eq, K.pure, writeSys, lseekSys,
    readSys, getProcess, hp, fdTableGet, hfd, getOfd, hofd, hofdid, hfile,
    derefInodeRef, hfs, hino, hdata, hr, hw, hna, hoff, INodeData.write,
    INodeData.read, putInode, putOfd, K.modifySt, syscallReturnSuccess, hpipe,
    K.send, dictGet_set_self, pyTake_eq_take c o h0 h1, hps,
    Int.add_neg_cancel_right]

theorem write_seek_read_roundtrip_witness :
    (writeSeekRead 0 0 "ab".data (mkFileSt "hello".data 3 2)).2.2 =
      Except.ok (PyVal.str "ab".data) := by
  exact write_seek_read_roundtrip (mkFileSt "hello".data 3 2) 0 0 "ab".data
    "hello".data 2 mkProcFd { id := 0, openFd := 0 } (mkOfd 3 2)
    (mkFs "hello".data) (mkFileInode "hello".data) rfl rfl rfl rfl rfl rfl rfl
    rfl rfl rfl rfl rfl (by decide) (by decide) rfl

end Unix74
